import Mathlib

/-!
Verification of the WalletsOrder buyer-discovery and bundle/sniper
classification pipeline.  The definitions below are a shallow embedding of
the `SimpleTokenAnalyzer` class of `src/bot.js` (the draft carrying the
bundle/sniper boundary logic): JavaScript numbers are modelled as rationals,
external HTTP lookups as explicit function parameters, and fallible
conversions as `Option` values.
-/

namespace WalletsOrder

/-- Token metadata as assembled by `getTokenInfo`. -/
structure TokenInfo where
  name : String
  symbol : String
  decimals : Nat
  totalSupply : ℚ
deriving Repr, DecidableEq

/-- One token-transfer event from the transfer-log feed.  `value` is the raw
integer token amount; `none` models a raw value string that the unit
conversion (`ethers.formatUnits`) rejects with an exception. -/
structure TransferEvent where
  fromAddr : String
  toAddr : String
  value : Option Nat
  hash : String
  blockNumber : Int
  timeStamp : Int
deriving Repr, DecidableEq

/-- Per-transaction signal as decoded from a successful
`eth_getTransactionByHash` lookup: gas price and priority fee in Gwei and the
position of the transaction inside its block. -/
structure TxSignal where
  gasPrice : ℚ
  priorityFee : ℚ
  transactionIndex : Int
deriving Repr, DecidableEq

/-- Return value of `getTransactionDetails`.  `gasPrice = none` models the
string `N/A` that the failure path stores in place of a numeric gas price. -/
structure GasDetails where
  gasPrice : Option ℚ
  priorityFee : ℚ
  transactionIndex : Int
deriving Repr, DecidableEq

/-- `getTransactionDetails` (src/bot.js): a successful lookup passes the
decoded fields through; a missing result or a thrown error returns the
sentinel with gasPrice N/A, priorityFee 0 and transactionIndex 999. -/
def getTransactionDetails (sig : Option TxSignal) : GasDetails :=
  match sig with
  | some s =>
      { gasPrice := some s.gasPrice
        priorityFee := s.priorityFee
        transactionIndex := s.transactionIndex }
  | none => { gasPrice := none, priorityFee := 0, transactionIndex := 999 }

/-- One entry of the `results` array built by `analyzeFirstBuyers`. -/
structure BuyerRecord where
  rank : Nat
  wallet : String
  amount : ℚ
  supplyPercent : ℚ
  txHash : String
  timestamp : Int
  blockNumber : Int
  gasPrice : ℚ
  priorityFee : ℚ
  transactionIndex : Int
  bribeAmount : ℚ
deriving Repr, DecidableEq

/-- JavaScript `toLowerCase()` on an (ASCII) address string. -/
def toLower (s : String) : String := ⟨s.data.map Char.toLower⟩

/-- The mint source address skipped by the dedup loop. -/
def zeroAddress : String := "0x0000000000000000000000000000000000000000"

/-- The `skipAddresses` set of `analyzeFirstBuyers`: two router addresses and
the token contract itself, all lower-cased. -/
def skipAddresses (contractAddress : String) : List String :=
  ["0x7a250d5630b4cf539739df2c5dacb4c659f2488d",
   "0xe592427a0aece92de3edee1f18e0157c05861564",
   toLower contractAddress]

/-- The try block computing `amount` and `supplyPercent` for one retained
event: `amount = formatUnits(tx.value, decimals)` and
`supplyPercent = amount / totalSupply * 100` guarded by
`totalSupply > 0 && amount > 0`; a conversion error leaves both at 0. -/
def computeAmountSupply (tokenInfo : TokenInfo) (value : Option Nat) : ℚ × ℚ :=
  match value with
  | none => (0, 0)
  | some v =>
      let amount : ℚ := (v : ℚ) / 10 ^ tokenInfo.decimals
      let supplyPercent : ℚ :=
        if 0 < tokenInfo.totalSupply ∧ 0 < amount then
          amount / tokenInfo.totalSupply * 100
        else 0
      (amount, supplyPercent)

/-- The per-iteration gas lookup with its enrichment budget: details are
fetched only while fewer than 100 records exist, otherwise the sentinel is
used without any lookup. -/
def resolveGasDetails (sig : String → Option TxSignal) (count : Nat) (h : String) : GasDetails :=
  if count < 100 then getTransactionDetails (sig h)
  else { gasPrice := none, priorityFee := 0, transactionIndex := 999 }

/-- The per-iteration bribe lookup, under the same budget of 100. -/
def resolveBribe (bribe : String → ℚ) (count : Nat) (h : String) : ℚ :=
  if count < 100 then bribe h else 0

/-- The object pushed onto `results` for one newly seen recipient.  `count`
is the number of records already retained, so the rank is `count + 1`;
`parseFloat(gasDetails.gasPrice) || 0` maps the `N/A` sentinel to 0. -/
def buildRecord (tokenInfo : TokenInfo) (tx : TransferEvent) (gasDetails : GasDetails)
    (bribeAmount : ℚ) (count : Nat) : BuyerRecord :=
  { rank := count + 1
    wallet := tx.toAddr
    amount := (computeAmountSupply tokenInfo tx.value).1
    supplyPercent := (computeAmountSupply tokenInfo tx.value).2
    txHash := tx.hash
    timestamp := tx.timeStamp
    blockNumber := tx.blockNumber
    gasPrice := gasDetails.gasPrice.getD 0
    priorityFee := gasDetails.priorityFee
    transactionIndex := gasDetails.transactionIndex
    bribeAmount := bribeAmount }

/-- The dedup loop of `analyzeFirstBuyers`: skip mints from the zero address,
skip excluded recipients, retain the first event per lower-cased recipient,
and stop once `results.length >= limit` after a push.  `seen` is the key set
of the `buyers` map and `count` the current `results.length`. -/
def analyzeLoop (tokenInfo : TokenInfo) (sig : String → Option TxSignal) (bribe : String → ℚ)
    (skip : List String) (limit : Nat) :
    List TransferEvent → List String → Nat → List BuyerRecord
  | [], _, _ => []
  | tx :: rest, seen, count =>
    if tx.fromAddr = zeroAddress then
      analyzeLoop tokenInfo sig bribe skip limit rest seen count
    else if toLower tx.toAddr ∈ skip then
      analyzeLoop tokenInfo sig bribe skip limit rest seen count
    else if toLower tx.toAddr ∈ seen then
      analyzeLoop tokenInfo sig bribe skip limit rest seen count
    else
      buildRecord tokenInfo tx (resolveGasDetails sig count tx.hash)
          (resolveBribe bribe count tx.hash) count ::
        (if limit ≤ count + 1 then []
         else analyzeLoop tokenInfo sig bribe skip limit rest
            (toLower tx.toAddr :: seen) (count + 1))

/-- The LP-outlier filter of `analyzeFirstBuyers`: when the rank-1 record
holds more than 50 percent of supply it is dropped and the remaining records
are re-ranked from 1; otherwise the list is returned untouched. -/
def lpFilter (results : List BuyerRecord) : List BuyerRecord :=
  match results with
  | [] => []
  | first :: rest =>
    if 50 < first.supplyPercent then
      rest.mapIdx fun index buyer => { buyer with rank := index + 1 }
    else first :: rest

/-- The value returned by a successful `analyzeFirstBuyers` call. -/
structure AnalyzeResult where
  tokenInfo : TokenInfo
  buyers : List BuyerRecord
  contractAddress : String
deriving Repr, DecidableEq

/-- `analyzeFirstBuyers` given the already-resolved token info, the fetched
transfer list and the lookup functions: fails on an empty transfer list,
runs the dedup loop, fails when no buyer was retained, and otherwise
returns the LP-filtered list. -/
def analyzeFirstBuyers (tokenInfo : TokenInfo) (transactions : List TransferEvent)
    (sig : String → Option TxSignal) (bribe : String → ℚ) (contractAddress : String)
    (limit : Nat) : Except String AnalyzeResult :=
  if transactions.length = 0 then Except.error "No transactions found"
  else
    if (analyzeLoop tokenInfo sig bribe (skipAddresses contractAddress) limit
        transactions [] 0).length = 0 then
      Except.error "No buyers found"
    else
      Except.ok
        { tokenInfo := tokenInfo
          buyers := lpFilter (analyzeLoop tokenInfo sig bribe
            (skipAddresses contractAddress) limit transactions [] 0)
          contractAddress := contractAddress }

/-- `Math.abs` on a rational. -/
def mathAbs (q : ℚ) : ℚ := if q < 0 then -q else q

/-- The break test of the bundle/sniper loop in `formatResults`: a pair of
adjacent buyers ends the bundle when the block positions are not consecutive
(`positionGap > 1`) or the gas price changes by more than 0.1 Gwei. -/
def fires (previous current : BuyerRecord) : Bool :=
  decide (1 < current.transactionIndex - previous.transactionIndex) ||
  decide ((1 : ℚ) / 10 < mathAbs (current.gasPrice - previous.gasPrice))

/-- The scan of the bundle/sniper loop: `previous` is `buyers[i-1]`, `rest`
the remaining suffix starting at `buyers[i]`, and `n` the initial value
`buyers.length` kept when no pair fires. -/
def bundleScan (previous : BuyerRecord) (rest : List BuyerRecord) (i n : Nat) : Nat :=
  match rest with
  | [] => n
  | current :: rest => if fires previous current then i else bundleScan current rest (i + 1) n

/-- `bundleEndRank` as computed by `formatResults`: initialized to the list
length, reassigned to the loop index of the first firing pair. -/
def bundleEndRank (buyers : List BuyerRecord) : Nat :=
  match buyers with
  | [] => 0
  | b :: rest => bundleScan b rest 1 (b :: rest).length

/-- The four metadata fetches of `getTokenInfo`, settled independently
(`Promise.allSettled`); `none` is a rejected fetch.  `totalSupplyRaw` is the
raw integer supply before unit conversion. -/
structure MetadataFetch where
  name : Option String
  symbol : Option String
  decimals : Option Nat
  totalSupplyRaw : Option Nat
deriving Repr, DecidableEq

/-- `getTokenInfo` of `SimpleTokenAnalyzer`: each field independently falls
back to its default, and the raw supply is converted with the resolved
decimals when positive. -/
def getTokenInfo (f : MetadataFetch) : TokenInfo :=
  let tokenName := f.name.getD "Unknown Token"
  let tokenSymbol := f.symbol.getD "TOKEN"
  let tokenDecimals := f.decimals.getD 18
  let tokenTotalSupply := f.totalSupplyRaw.getD 0
  let readableSupply : ℚ :=
    if 0 < tokenTotalSupply then (tokenTotalSupply : ℚ) / 10 ^ tokenDecimals else 0
  { name := tokenName
    symbol := tokenSymbol
    decimals := tokenDecimals
    totalSupply := readableSupply }

/-- A buyer record with the given gas price, priority fee and block
position, used for concrete boundary scenarios. -/
def mkBuyer (g pf : ℚ) (p : Int) : BuyerRecord :=
  { rank := 0, wallet := "", amount := 0, supplyPercent := 0, txHash := ""
    timestamp := 0, blockNumber := 0, gasPrice := g, priorityFee := pf
    transactionIndex := p, bribeAmount := 0 }

/-- Bool form of the conditions under which the dedup loop can retain an
event: its sender is not the zero address and its recipient is not excluded. -/
def qualifies (skip : List String) (e : TransferEvent) : Bool :=
  !(e.fromAddr == zeroAddress) && !(skip.contains (toLower e.toAddr))

/-- The first event of the list that the dedup loop could retain for the
given wallet (case-insensitive recipient match). -/
def firstBuyEvent (skip : List String) (wallet : String)
    (events : List TransferEvent) : Option TransferEvent :=
  events.find? fun e => qualifies skip e && (toLower e.toAddr == toLower wallet)

/-- A token with unresolved supply, used in concrete scenarios. -/
def tokenInfoT : TokenInfo :=
  { name := "T", symbol := "T", decimals := 18, totalSupply := 0 }

/-- A concrete transfer event, recipient `0xBuyerA`. -/
def eventA : TransferEvent :=
  { fromAddr := "0xsender1", toAddr := "0xBuyerA", value := some 0, hash := "ha"
    blockNumber := 1, timeStamp := 0 }

/-- A concrete transfer event, recipient `0xBuyerB`. -/
def eventB : TransferEvent :=
  { fromAddr := "0xsender2", toAddr := "0xBuyerB", value := some 0, hash := "hb"
    blockNumber := 1, timeStamp := 0 }

/-- The record built for `eventA` when its signal lookup succeeds with gas
price 5 Gwei, priority fee 1 and block position 0. -/
def presentRecord : BuyerRecord :=
  buildRecord tokenInfoT eventA
    (getTransactionDetails (some { gasPrice := 5, priorityFee := 1, transactionIndex := 0 }))
    0 0

/-- The record built for `eventB` when its signal lookup fails: the stored
fields are the concrete sentinels. -/
def absentRecord : BuyerRecord :=
  buildRecord tokenInfoT eventB (resolveGasDetails (fun _ => none) 1 "hb") 0 1

/-- A rank-1 record holding 60 percent of supply, a liquidity-pool deposit in
the sense of the LP filter. -/
def lpRecord : BuyerRecord :=
  { rank := 1, wallet := "0xPool", amount := 60, supplyPercent := 60, txHash := "hp"
    timestamp := 0, blockNumber := 1, gasPrice := 5, priorityFee := 0
    transactionIndex := 0, bribeAmount := 0 }

/-- A token with resolved supply 4, used in concrete scenarios. -/
def tokenInfoS : TokenInfo :=
  { name := "S", symbol := "S", decimals := 0, totalSupply := 4 }

end WalletsOrder

namespace WalletsOrder

/-- The pair-by-pair predicate stating that no boundary rule fires between
two adjacent buyers. -/
def noBreak (x y : BuyerRecord) : Prop := fires x y = false

theorem bundleScan_of_chain (rest : List BuyerRecord) :
    ∀ (prev : BuyerRecord) (i n : Nat),
      List.Chain' noBreak (prev :: rest) → bundleScan prev rest i n = n := by
  induction rest with
  | nil => intro prev i n _; rfl
  | cons c rest ih =>
      intro prev i n h
      rcases List.chain'_cons.mp h with ⟨h1, h2⟩
      have h1' : fires prev c = false := h1
      simp only [bundleScan, h1', Bool.false_eq_true, if_false]
      exact ih c (i + 1) n h2

theorem bundleScan_split (mid : List BuyerRecord) :
    ∀ (prev a b : BuyerRecord) (post : List BuyerRecord) (i n : Nat),
      List.Chain' noBreak (prev :: (mid ++ [a])) → fires a b = true →
      bundleScan prev (mid ++ a :: b :: post) i n = i + mid.length + 1 := by
  induction mid with
  | nil =>
      intro prev a b post i n hchain hf
      rcases List.chain'_cons.mp hchain with ⟨h1, _⟩
      have h1' : fires prev a = false := h1
      simp only [List.nil_append, bundleScan, h1', Bool.false_eq_true, if_false, hf, if_true,
        List.length_nil]
  | cons m mid ih =>
      intro prev a b post i n hchain hf
      rcases List.chain'_cons.mp hchain with ⟨h1, h2⟩
      have h1' : fires prev m = false := h1
      simp only [List.cons_append, bundleScan, h1', Bool.false_eq_true, if_false]
      exact (ih m a b post (i + 1) n h2 hf).trans (by simp only [List.length_cons]; omega)

theorem bundleEndRank_split (pre : List BuyerRecord) (a b : BuyerRecord)
    (post : List BuyerRecord) (hchain : List.Chain' noBreak (pre ++ [a]))
    (hf : fires a b = true) :
    bundleEndRank (pre ++ a :: b :: post) = pre.length + 1 := by
  cases pre with
  | nil =>
      simp only [List.nil_append, bundleEndRank, bundleScan, hf, if_true, List.length_nil]
  | cons x mid =>
      have hch : List.Chain' noBreak (x :: (mid ++ [a])) := hchain
      have hs := bundleScan_split mid x a b post 1 ((x :: (mid ++ a :: b :: post)).length) hch hf
      simp only [List.cons_append, bundleEndRank]
      exact hs.trans (by simp only [List.length_cons]; omega)

theorem bundleEndRank_of_chain (bs : List BuyerRecord)
    (h : List.Chain' noBreak bs) : bundleEndRank bs = bs.length := by
  cases bs with
  | nil => rfl
  | cons b rest => exact bundleScan_of_chain rest b 1 _ h

theorem bundleScan_cases (rest : List BuyerRecord) :
    ∀ (prev : BuyerRecord) (i n : Nat),
      bundleScan prev rest i n = n ∨
        (i ≤ bundleScan prev rest i n ∧ bundleScan prev rest i n < i + rest.length) := by
  induction rest with
  | nil => intro prev i n; left; rfl
  | cons c rest ih =>
      intro prev i n
      by_cases hf : fires prev c = true
      · right
        simp only [bundleScan, hf, if_true, List.length_cons]
        omega
      · have hf' : fires prev c = false := by
          cases hfc : fires prev c
          · rfl
          · exact absurd hfc hf
        simp only [bundleScan, hf', Bool.false_eq_true, if_false, List.length_cons]
        rcases ih c (i + 1) n with h | ⟨ha, hb⟩
        · left; exact h
        · right
          constructor
          · omega
          · omega

end WalletsOrder

namespace WalletsOrder

/-- C1: the bundle/sniper loop places a gas-price boundary whenever the
absolute gas difference of an adjacent pair exceeds 0.1 Gwei, regardless of
doubling and without consulting the priority fee (amended from the claimed
double/triple thresholds); and for gas [5,5,5,25] with contiguous block
positions the boundary lands at rank 3. -/
theorem bundleClassifier_gas_break :
    (∀ (pre : List BuyerRecord) (a b : BuyerRecord) (post : List BuyerRecord),
        List.Chain' noBreak (pre ++ [a]) →
        b.transactionIndex - a.transactionIndex ≤ 1 →
        (1 : ℚ) / 10 < mathAbs (b.gasPrice - a.gasPrice) →
        bundleEndRank (pre ++ a :: b :: post) = pre.length + 1) ∧
    bundleEndRank [mkBuyer 5 0 0, mkBuyer 5 0 1, mkBuyer 5 0 2, mkBuyer 25 0 3] = 3 := by
  constructor
  · intro pre a b post hchain _ hgas
    apply bundleEndRank_split pre a b post hchain
    simp only [fires, Bool.or_eq_true, decide_eq_true_eq]
    right
    exact hgas
  · norm_num [bundleEndRank, bundleScan, fires, mkBuyer, mathAbs]

/-- Witness for C1: with one quiet leading pair, a gas move from 5 to 25
Gwei at contiguous positions puts the boundary at rank 2. -/
theorem bundleClassifier_gas_break_witness :
    List.Chain' noBreak ([mkBuyer 5 0 0] ++ [mkBuyer 5 0 1]) ∧
    (mkBuyer 25 0 2).transactionIndex - (mkBuyer 5 0 1).transactionIndex ≤ 1 ∧
    (1 : ℚ) / 10 < mathAbs ((mkBuyer 25 0 2).gasPrice - (mkBuyer 5 0 1).gasPrice) ∧
    bundleEndRank ([mkBuyer 5 0 0] ++ mkBuyer 5 0 1 :: mkBuyer 25 0 2 :: []) =
      [mkBuyer 5 0 0].length + 1 := by
  have h1 : List.Chain' noBreak ([mkBuyer 5 0 0] ++ [mkBuyer 5 0 1]) := by
    norm_num [List.chain'_cons, List.chain'_singleton, noBreak, fires, mkBuyer, mathAbs]
  have h2 : (mkBuyer 25 0 2).transactionIndex - (mkBuyer 5 0 1).transactionIndex ≤ 1 := by
    norm_num [mkBuyer]
  have h3 : (1 : ℚ) / 10 < mathAbs ((mkBuyer 25 0 2).gasPrice - (mkBuyer 5 0 1).gasPrice) := by
    norm_num [mkBuyer, mathAbs]
  exact ⟨h1, h2, h3,
    bundleClassifier_gas_break.1 [mkBuyer 5 0 0] (mkBuyer 5 0 1) (mkBuyer 25 0 2) [] h1 h2 h3⟩

/-- Counterexample to C1 as stated: a gas step from 5 to 6 Gwei at
contiguous positions (equal priority fees) is neither more than double the
previous gas nor a tripled priority fee, yet the loop places a boundary at
rank 1. -/
theorem bundleClassifier_gas_break_counterexample :
    bundleEndRank [mkBuyer 5 1 0, mkBuyer 6 1 1] = 1 ∧
    ¬ (2 * (mkBuyer 5 1 0).gasPrice < (mkBuyer 6 1 1).gasPrice) ∧
    ¬ (3 * (mkBuyer 5 1 0).priorityFee < (mkBuyer 6 1 1).priorityFee) ∧
    (mkBuyer 6 1 1).transactionIndex - (mkBuyer 5 1 0).transactionIndex ≤ 1 ∧
    [mkBuyer 5 1 0, mkBuyer 6 1 1].length = 2 := by
  refine ⟨?_, by norm_num [mkBuyer], by norm_num [mkBuyer], by norm_num [mkBuyer], rfl⟩
  norm_num [bundleEndRank, bundleScan, fires, mkBuyer, mathAbs]

/-- C2: when no earlier pair fires, a block-position gap greater than 1 puts
the boundary at the earlier buyer of the pair; when no rule fires on any
pair, bundleEndRank is the list length; positions [10,11,12,50] at gas
[5,5,5,5] give rank 3 and fully contiguous positions give rank N = 4. -/
theorem bundleClassifier_position_break :
    (∀ (pre : List BuyerRecord) (a b : BuyerRecord) (post : List BuyerRecord),
        List.Chain' noBreak (pre ++ [a]) →
        1 < b.transactionIndex - a.transactionIndex →
        bundleEndRank (pre ++ a :: b :: post) = pre.length + 1) ∧
    (∀ bs : List BuyerRecord, List.Chain' noBreak bs → bundleEndRank bs = bs.length) ∧
    bundleEndRank [mkBuyer 5 0 10, mkBuyer 5 0 11, mkBuyer 5 0 12, mkBuyer 5 0 50] = 3 ∧
    bundleEndRank [mkBuyer 5 0 0, mkBuyer 5 0 1, mkBuyer 5 0 2, mkBuyer 5 0 3] = 4 := by
  refine ⟨?_, bundleEndRank_of_chain, ?_, ?_⟩
  · intro pre a b post hchain hgap
    apply bundleEndRank_split pre a b post hchain
    simp only [fires, Bool.or_eq_true, decide_eq_true_eq]
    left
    exact hgap
  · norm_num [bundleEndRank, bundleScan, fires, mkBuyer, mathAbs]
  · norm_num [bundleEndRank, bundleScan, fires, mkBuyer, mathAbs]

/-- Witness for C2: a position jump from 11 to 50 after one quiet pair puts
the boundary at rank 2, and a fully quiet two-buyer list keeps rank N = 2. -/
theorem bundleClassifier_position_break_witness :
    List.Chain' noBreak ([mkBuyer 5 0 10] ++ [mkBuyer 5 0 11]) ∧
    (1 : Int) < (mkBuyer 5 0 50).transactionIndex - (mkBuyer 5 0 11).transactionIndex ∧
    bundleEndRank ([mkBuyer 5 0 10] ++ mkBuyer 5 0 11 :: mkBuyer 5 0 50 :: []) =
      [mkBuyer 5 0 10].length + 1 ∧
    List.Chain' noBreak [mkBuyer 5 0 10, mkBuyer 5 0 11] ∧
    bundleEndRank [mkBuyer 5 0 10, mkBuyer 5 0 11] =
      [mkBuyer 5 0 10, mkBuyer 5 0 11].length := by
  have h1 : List.Chain' noBreak ([mkBuyer 5 0 10] ++ [mkBuyer 5 0 11]) := by
    norm_num [List.chain'_cons, List.chain'_singleton, noBreak, fires, mkBuyer, mathAbs]
  have h2 : (1 : Int) < (mkBuyer 5 0 50).transactionIndex - (mkBuyer 5 0 11).transactionIndex := by
    norm_num [mkBuyer]
  have h4 : List.Chain' noBreak [mkBuyer 5 0 10, mkBuyer 5 0 11] := h1
  exact ⟨h1, h2,
    bundleClassifier_position_break.1 [mkBuyer 5 0 10] (mkBuyer 5 0 11) (mkBuyer 5 0 50) [] h1 h2,
    h4, bundleClassifier_position_break.2.1 [mkBuyer 5 0 10, mkBuyer 5 0 11] h4⟩

/-- C9: on a non-empty buyer list, bundleEndRank stays between 1 and the
list length: it starts at the length and is only ever reassigned to a scan
index of at least 1, so the rank-1 buyer always sits in the bundle cohort. -/
theorem bundleEndRank_bounds (b : BuyerRecord) (rest : List BuyerRecord) :
    1 ≤ bundleEndRank (b :: rest) ∧ bundleEndRank (b :: rest) ≤ (b :: rest).length := by
  have h := bundleScan_cases rest b 1 ((b :: rest).length)
  simp only [bundleEndRank, List.length_cons] at h ⊢
  rcases h with h | ⟨h1, h2⟩
  · rw [h]
    omega
  · omega

end WalletsOrder

namespace WalletsOrder

/-- C4: when the rank-1 record holds more than 50 percent of supply, the LP
filter removes exactly that record and renumbers the remainder from rank 1
preserving relative order; when every record is at most 50 percent, the list
is returned unchanged. -/
theorem lpFilter_spec :
    (∀ (first : BuyerRecord) (rest : List BuyerRecord), 50 < first.supplyPercent →
        (lpFilter (first :: rest)).length = rest.length ∧
        ∀ (i : Nat) (hi : i < rest.length),
          (lpFilter (first :: rest))[i]? = some { rest.get ⟨i, hi⟩ with rank := i + 1 }) ∧
    (∀ results : List BuyerRecord, (∀ r ∈ results, r.supplyPercent ≤ 50) →
        lpFilter results = results) := by
  constructor
  · intro first rest h50
    have hfil : lpFilter (first :: rest) =
        rest.mapIdx fun index buyer => { buyer with rank := index + 1 } := by
      simp [lpFilter, h50]
    constructor
    · rw [hfil]
      simp
    · intro i hi
      rw [hfil]
      have hlen : i < (rest.mapIdx fun index buyer =>
          { buyer with rank := index + 1 }).length := by simpa using hi
      rw [List.getElem?_eq_getElem hlen]
      congr 1
      have hg := List.get_mapIdx rest (fun index buyer => { buyer with rank := index + 1 }) i hi
      simp only [List.get_eq_getElem] at hg
      exact hg
  · intro results hall
    cases results with
    | nil => rfl
    | cons first rest =>
        have : ¬ 50 < first.supplyPercent :=
          not_lt.mpr (hall first (List.mem_cons_self first rest))
        simp [lpFilter, this]

/-- Witness for C4: a 60 percent rank-1 record in front of an ordinary buyer
is dropped and the ordinary buyer is reranked to 1; a list of records all at
most 50 percent is unchanged. -/
theorem lpFilter_spec_witness :
    50 < lpRecord.supplyPercent ∧
    (lpFilter [lpRecord, presentRecord]).length = [presentRecord].length ∧
    (lpFilter [lpRecord, presentRecord])[0]? =
      some { [presentRecord].get ⟨0, by norm_num⟩ with rank := 0 + 1 } ∧
    (∀ r ∈ [presentRecord], r.supplyPercent ≤ 50) ∧
    lpFilter [presentRecord] = [presentRecord] := by
  have h50 : 50 < lpRecord.supplyPercent := by norm_num [lpRecord]
  have hle : ∀ r ∈ [presentRecord], r.supplyPercent ≤ 50 := by
    intro r hr
    simp only [List.mem_singleton] at hr
    subst hr
    norm_num [presentRecord, buildRecord, computeAmountSupply, tokenInfoT, eventA]
  have hmain := lpFilter_spec.1 lpRecord [presentRecord] h50
  exact ⟨h50, hmain.1, hmain.2 0 (by norm_num), hle, lpFilter_spec.2 [presentRecord] hle⟩

/-- C10: when the signal lookup fails or the enrichment budget is exhausted,
the constructed record stores the concrete sentinels gasPrice 0 (parseFloat
of N/A coerced), priorityFee 0 and blockPosition 999; and a genuinely zero
gas signal at position 999 builds the very same record, so the absent case
is indistinguishable from a true zero. -/
theorem sentinel_record_fields (ti : TokenInfo) (tx : TransferEvent)
    (sig : String → Option TxSignal) (bribe : String → ℚ) (count : Nat) (h : String)
    (habs : sig h = none ∨ 100 ≤ count) :
    (buildRecord ti tx (resolveGasDetails sig count h)
        (resolveBribe bribe count h) count).gasPrice = 0 ∧
    (buildRecord ti tx (resolveGasDetails sig count h)
        (resolveBribe bribe count h) count).priorityFee = 0 ∧
    (buildRecord ti tx (resolveGasDetails sig count h)
        (resolveBribe bribe count h) count).transactionIndex = 999 ∧
    buildRecord ti tx
        (getTransactionDetails (some { gasPrice := 0, priorityFee := 0, transactionIndex := 999 }))
        (resolveBribe bribe count h) count =
      buildRecord ti tx (getTransactionDetails none) (resolveBribe bribe count h) count := by
  have hsent : resolveGasDetails sig count h =
      { gasPrice := none, priorityFee := 0, transactionIndex := 999 } := by
    rcases habs with ha | hc
    · simp [resolveGasDetails, ha, getTransactionDetails]
    · simp [resolveGasDetails, Nat.not_lt.mpr hc]
  rw [hsent]
  refine ⟨rfl, rfl, rfl, ?_⟩
  simp [buildRecord, getTransactionDetails]

/-- Witness for C10: a failing lookup for a concrete event yields the
sentinel triple. -/
theorem sentinel_record_fields_witness :
    ((fun _ : String => (none : Option TxSignal)) "hb" = none ∨ 100 ≤ 1) ∧
    (buildRecord tokenInfoT eventB (resolveGasDetails (fun _ => none) 1 "hb")
        (resolveBribe (fun _ => 0) 1 "hb") 1).gasPrice = 0 ∧
    (buildRecord tokenInfoT eventB (resolveGasDetails (fun _ => none) 1 "hb")
        (resolveBribe (fun _ => 0) 1 "hb") 1).priorityFee = 0 ∧
    (buildRecord tokenInfoT eventB (resolveGasDetails (fun _ => none) 1 "hb")
        (resolveBribe (fun _ => 0) 1 "hb") 1).transactionIndex = 999 :=
  have habs : (fun _ : String => (none : Option TxSignal)) "hb" = none ∨ 100 ≤ 1 :=
    Or.inl rfl
  have hm := sentinel_record_fields tokenInfoT eventB (fun _ => none) (fun _ => 0) 1 "hb" habs
  ⟨habs, hm.1, hm.2.1, hm.2.2.1⟩

/-- C3 (amended): two adjacent buyers whose signal lookups both failed carry
identical sentinels and never fire a boundary between them, but a buyer with
absent signals directly after a buyer with present signals can fire one (see
the counterexample). -/
theorem absentSignals_no_break (ti1 ti2 : TokenInfo) (tx1 tx2 : TransferEvent)
    (sig1 sig2 : String → Option TxSignal) (b1 b2 : ℚ) (c1 c2 : Nat) (h1 h2 : String)
    (ha : sig1 h1 = none) (hb : sig2 h2 = none) :
    fires (buildRecord ti1 tx1 (resolveGasDetails sig1 c1 h1) b1 c1)
      (buildRecord ti2 tx2 (resolveGasDetails sig2 c2 h2) b2 c2) = false := by
  have hga : resolveGasDetails sig1 c1 h1 =
      { gasPrice := none, priorityFee := 0, transactionIndex := 999 } := by
    simp [resolveGasDetails, ha, getTransactionDetails]
  have hgb : resolveGasDetails sig2 c2 h2 =
      { gasPrice := none, priorityFee := 0, transactionIndex := 999 } := by
    simp [resolveGasDetails, hb, getTransactionDetails]
  rw [hga, hgb]
  norm_num [fires, buildRecord, mathAbs]

/-- Witness for C3: two concrete buyers with failed lookups do not fire. -/
theorem absentSignals_no_break_witness :
    (fun _ : String => (none : Option TxSignal)) "ha" = none ∧
    (fun _ : String => (none : Option TxSignal)) "hb" = none ∧
    fires (buildRecord tokenInfoT eventA (resolveGasDetails (fun _ => none) 0 "ha") 0 0)
      (buildRecord tokenInfoT eventB (resolveGasDetails (fun _ => none) 1 "hb") 0 1) = false :=
  ⟨rfl, rfl, absentSignals_no_break tokenInfoT tokenInfoT eventA eventB
    (fun _ => none) (fun _ => none) 0 0 0 1 "ha" "hb" rfl rfl⟩

/-- Counterexample to C3 as stated: the record built from a failed lookup
stores sentinels (gas 0, position 999), and comparing it against a
predecessor with present signals (gas 5, position 0) does by itself fire a
boundary, so the two-buyer list gets bundleEndRank 1 instead of N = 2. -/
theorem absentSignals_trigger_break_counterexample :
    absentRecord.gasPrice = 0 ∧ absentRecord.priorityFee = 0 ∧
    absentRecord.transactionIndex = 999 ∧
    presentRecord.gasPrice = 5 ∧ presentRecord.transactionIndex = 0 ∧
    fires presentRecord absentRecord = true ∧
    bundleEndRank [presentRecord, absentRecord] = 1 ∧
    [presentRecord, absentRecord].length = 2 := by
  norm_num [absentRecord, presentRecord, buildRecord, getTransactionDetails,
    resolveGasDetails, tokenInfoT, eventA, eventB, fires, mathAbs, bundleEndRank, bundleScan]

end WalletsOrder

namespace WalletsOrder

theorem qualifies_false_of_zero (skip : List String) (tx : TransferEvent)
    (hz : tx.fromAddr = zeroAddress) : qualifies skip tx = false := by
  simp [qualifies, hz]

theorem qualifies_false_of_skip (skip : List String) (tx : TransferEvent)
    (hs : toLower tx.toAddr ∈ skip) : qualifies skip tx = false := by
  simp [qualifies, hs]

theorem qualifies_true (skip : List String) (tx : TransferEvent)
    (hz : tx.fromAddr ≠ zeroAddress) (hs : toLower tx.toAddr ∉ skip) :
    qualifies skip tx = true := by
  simp [qualifies, hz, hs]

theorem analyzeLoop_inv (ti : TokenInfo) (sig : String → Option TxSignal) (bribe : String → ℚ)
    (skip : List String) (limit : Nat) :
    ∀ (events : List TransferEvent) (seen : List String) (count : Nat),
      (∀ r ∈ analyzeLoop ti sig bribe skip limit events seen count, toLower r.wallet ∉ seen) ∧
      ((analyzeLoop ti sig bribe skip limit events seen count).map
          fun r => toLower r.wallet).Nodup ∧
      (∀ r ∈ analyzeLoop ti sig bribe skip limit events seen count,
        ∃ e, firstBuyEvent skip r.wallet events = some e ∧
          r.wallet = e.toAddr ∧ r.txHash = e.hash) := by
  intro events
  induction events with
  | nil =>
      intro seen count
      simp [analyzeLoop]
  | cons tx rest ih =>
      intro seen count
      by_cases hz : tx.fromAddr = zeroAddress
      · have heq : analyzeLoop ti sig bribe skip limit (tx :: rest) seen count
            = analyzeLoop ti sig bribe skip limit rest seen count := by
          simp [analyzeLoop, hz]
        have hq := qualifies_false_of_zero skip tx hz
        rw [heq]
        refine ⟨(ih seen count).1, (ih seen count).2.1, ?_⟩
        intro r hr
        obtain ⟨e, he, hw, hh⟩ := (ih seen count).2.2 r hr
        refine ⟨e, ?_, hw, hh⟩
        rw [firstBuyEvent, List.find?_cons_of_neg, ← firstBuyEvent, he]
        simp [hq]
      · by_cases hskip : toLower tx.toAddr ∈ skip
        · have heq : analyzeLoop ti sig bribe skip limit (tx :: rest) seen count
              = analyzeLoop ti sig bribe skip limit rest seen count := by
            simp [analyzeLoop, hz, hskip]
          have hq := qualifies_false_of_skip skip tx hskip
          rw [heq]
          refine ⟨(ih seen count).1, (ih seen count).2.1, ?_⟩
          intro r hr
          obtain ⟨e, he, hw, hh⟩ := (ih seen count).2.2 r hr
          refine ⟨e, ?_, hw, hh⟩
          rw [firstBuyEvent, List.find?_cons_of_neg, ← firstBuyEvent, he]
          simp [hq]
        · have hq := qualifies_true skip tx hz hskip
          by_cases hseen : toLower tx.toAddr ∈ seen
          · have heq : analyzeLoop ti sig bribe skip limit (tx :: rest) seen count
                = analyzeLoop ti sig bribe skip limit rest seen count := by
              simp [analyzeLoop, hz, hskip, hseen]
            rw [heq]
            refine ⟨(ih seen count).1, (ih seen count).2.1, ?_⟩
            intro r hr
            obtain ⟨e, he, hw, hh⟩ := (ih seen count).2.2 r hr
            refine ⟨e, ?_, hw, hh⟩
            have hne : (toLower tx.toAddr == toLower r.wallet) = false := by
              refine beq_eq_false_iff_ne.mpr ?_
              intro hcontra
              exact ((ih seen count).1 r hr) (hcontra ▸ hseen)
            rw [firstBuyEvent, List.find?_cons_of_neg, ← firstBuyEvent, he]
            simp [hne]
          · -- retained
            have heq : analyzeLoop ti sig bribe skip limit (tx :: rest) seen count
                = buildRecord ti tx (resolveGasDetails sig count tx.hash)
                    (resolveBribe bribe count tx.hash) count ::
                  (if limit ≤ count + 1 then []
                   else analyzeLoop ti sig bribe skip limit rest
                      (toLower tx.toAddr :: seen) (count + 1)) := by
              simp [analyzeLoop, hz, hskip, hseen]
            rw [heq]
            set rec := buildRecord ti tx (resolveGasDetails sig count tx.hash)
                (resolveBribe bribe count tx.hash) count with hrec
            have hwallet : rec.wallet = tx.toAddr := rfl
            have hhash : rec.txHash = tx.hash := rfl
            have htail : ∀ r ∈ (if limit ≤ count + 1 then []
                else analyzeLoop ti sig bribe skip limit rest
                  (toLower tx.toAddr :: seen) (count + 1)),
                toLower r.wallet ∉ toLower tx.toAddr :: seen := by
              intro r hr
              by_cases hlim : limit ≤ count + 1
              · simp [hlim] at hr
              · rw [if_neg hlim] at hr
                exact (ih (toLower tx.toAddr :: seen) (count + 1)).1 r hr
            have htailnodup : ((if limit ≤ count + 1 then []
                else analyzeLoop ti sig bribe skip limit rest
                  (toLower tx.toAddr :: seen) (count + 1)).map
                fun r => toLower r.wallet).Nodup := by
              by_cases hlim : limit ≤ count + 1
              · simp [hlim]
              · rw [if_neg hlim]
                exact (ih (toLower tx.toAddr :: seen) (count + 1)).2.1
            have htailfind : ∀ r ∈ (if limit ≤ count + 1 then []
                else analyzeLoop ti sig bribe skip limit rest
                  (toLower tx.toAddr :: seen) (count + 1)),
                ∃ e, firstBuyEvent skip r.wallet rest = some e ∧
                  r.wallet = e.toAddr ∧ r.txHash = e.hash := by
              intro r hr
              by_cases hlim : limit ≤ count + 1
              · simp [hlim] at hr
              · rw [if_neg hlim] at hr
                exact (ih (toLower tx.toAddr :: seen) (count + 1)).2.2 r hr
            refine ⟨?_, ?_, ?_⟩
            · intro r hr
              rcases List.mem_cons.mp hr with hr | hr
              · subst hr
                rw [hwallet]
                exact hseen
              · have := htail r hr
                intro hcontra
                exact this (List.mem_cons_of_mem _ hcontra)
            · rw [List.map_cons]
              refine List.nodup_cons.mpr ⟨?_, htailnodup⟩
              intro hcontra
              rw [List.mem_map] at hcontra
              obtain ⟨r, hr, hwr⟩ := hcontra
              have := htail r hr
              rw [hwallet] at hwr
              exact this (hwr ▸ List.mem_cons_self _ _)
            · intro r hr
              rcases List.mem_cons.mp hr with hr | hr
              · subst hr
                refine ⟨tx, ?_, hwallet, hhash⟩
                rw [firstBuyEvent, List.find?_cons_of_pos]
                rw [hwallet]
                simp [hq]
              · obtain ⟨e, he, hw, hh⟩ := htailfind r hr
                refine ⟨e, ?_, hw, hh⟩
                have hne : (toLower tx.toAddr == toLower r.wallet) = false := by
                  refine beq_eq_false_iff_ne.mpr ?_
                  intro hcontra
                  exact (htail r hr) (hcontra ▸ List.mem_cons_self _ _)
                rw [firstBuyEvent, List.find?_cons_of_neg, ← firstBuyEvent, he]
                simp [hne]

end WalletsOrder

namespace WalletsOrder

theorem analyzeLoop_length_le (ti : TokenInfo) (sig : String → Option TxSignal)
    (bribe : String → ℚ) (skip : List String) (limit : Nat) :
    ∀ (events : List TransferEvent) (seen : List String) (count : Nat), count < limit →
      (analyzeLoop ti sig bribe skip limit events seen count).length + count ≤ limit := by
  intro events
  induction events with
  | nil =>
      intro seen count h
      simp only [analyzeLoop, List.length_nil]
      omega
  | cons tx rest ih =>
      intro seen count hcount
      by_cases hz : tx.fromAddr = zeroAddress
      · rw [show analyzeLoop ti sig bribe skip limit (tx :: rest) seen count
            = analyzeLoop ti sig bribe skip limit rest seen count by simp [analyzeLoop, hz]]
        exact ih seen count hcount
      · by_cases hskip : toLower tx.toAddr ∈ skip
        · rw [show analyzeLoop ti sig bribe skip limit (tx :: rest) seen count
              = analyzeLoop ti sig bribe skip limit rest seen count by
                simp [analyzeLoop, hz, hskip]]
          exact ih seen count hcount
        · by_cases hseen : toLower tx.toAddr ∈ seen
          · rw [show analyzeLoop ti sig bribe skip limit (tx :: rest) seen count
                = analyzeLoop ti sig bribe skip limit rest seen count by
                  simp [analyzeLoop, hz, hskip, hseen]]
            exact ih seen count hcount
          · rw [show analyzeLoop ti sig bribe skip limit (tx :: rest) seen count
                = buildRecord ti tx (resolveGasDetails sig count tx.hash)
                    (resolveBribe bribe count tx.hash) count ::
                  (if limit ≤ count + 1 then []
                   else analyzeLoop ti sig bribe skip limit rest
                      (toLower tx.toAddr :: seen) (count + 1)) by
                  simp [analyzeLoop, hz, hskip, hseen]]
            by_cases hlim : limit ≤ count + 1
            · rw [if_pos hlim]
              simp only [List.length_cons, List.length_nil]
              omega
            · rw [if_neg hlim]
              have := ih (toLower tx.toAddr :: seen) (count + 1) (by omega)
              simp only [List.length_cons]
              omega

/-- C5: over any transfer-event list the dedup loop retains no two records
with the same lower-cased wallet, every retained record comes from the first
event of the input whose recipient matches it case-insensitively and which
is neither a mint from the zero address nor aimed at an excluded recipient,
and at most `limit` records are retained. -/
theorem analyzeLoop_dedup_spec (ti : TokenInfo) (sig : String → Option TxSignal)
    (bribe : String → ℚ) (skip : List String) (limit : Nat) (events : List TransferEvent)
    (hlimit : 1 ≤ limit) :
    ((analyzeLoop ti sig bribe skip limit events [] 0).map
        fun r => toLower r.wallet).Nodup ∧
    (∀ r ∈ analyzeLoop ti sig bribe skip limit events [] 0,
      ∃ e, firstBuyEvent skip r.wallet events = some e ∧
        r.wallet = e.toAddr ∧ r.txHash = e.hash) ∧
    (analyzeLoop ti sig bribe skip limit events [] 0).length ≤ limit := by
  refine ⟨(analyzeLoop_inv ti sig bribe skip limit events [] 0).2.1,
    (analyzeLoop_inv ti sig bribe skip limit events [] 0).2.2, ?_⟩
  have := analyzeLoop_length_le ti sig bribe skip limit events [] 0 (by omega)
  omega

end WalletsOrder

namespace WalletsOrder

/-- Witness for C5: on two concrete transfer events with distinct recipients
the loop output has pairwise distinct lower-cased wallets, each record stems
from the first qualifying event of its recipient, and at most 5 records are
retained. -/
theorem analyzeLoop_dedup_spec_witness :
    1 ≤ 5 ∧
    ((analyzeLoop tokenInfoT (fun _ => none) (fun _ => 0) [] 5 [eventA, eventB] [] 0).map
        fun r => toLower r.wallet).Nodup ∧
    (∀ r ∈ analyzeLoop tokenInfoT (fun _ => none) (fun _ => 0) [] 5 [eventA, eventB] [] 0,
      ∃ e, firstBuyEvent [] r.wallet [eventA, eventB] = some e ∧
        r.wallet = e.toAddr ∧ r.txHash = e.hash) ∧
    (analyzeLoop tokenInfoT (fun _ => none) (fun _ => 0) [] 5 [eventA, eventB] [] 0).length ≤ 5 :=
  ⟨by norm_num,
    analyzeLoop_dedup_spec tokenInfoT (fun _ => none) (fun _ => 0) [] 5 [eventA, eventB]
      (by norm_num)⟩

/-- C6: for a retained event, supplyPercent equals amount / totalSupply * 100
whenever totalSupply is positive, is 0 whenever totalSupply is 0, a raw-value
conversion error yields amount 0 and supplyPercent 0 without failing, and
supplyPercent is never negative. -/
theorem computeAmountSupply_spec (ti : TokenInfo) :
    (∀ v : Nat, 0 < ti.totalSupply →
      (computeAmountSupply ti (some v)).2
        = (computeAmountSupply ti (some v)).1 / ti.totalSupply * 100) ∧
    (ti.totalSupply = 0 → ∀ value : Option Nat, (computeAmountSupply ti value).2 = 0) ∧
    computeAmountSupply ti none = (0, 0) ∧
    (∀ value : Option Nat, 0 ≤ (computeAmountSupply ti value).2) := by
  refine ⟨?_, ?_, rfl, ?_⟩
  · intro v hts
    by_cases ha : 0 < ((v : ℚ) / 10 ^ ti.decimals)
    · simp [computeAmountSupply, hts, ha]
    · have hv0 : ((v : ℚ) / 10 ^ ti.decimals) = 0 := by
        refine le_antisymm (not_lt.mp ha) ?_
        positivity
      simp [computeAmountSupply, ha, hv0]
  · intro h0 value
    rcases value with _ | v
    · rfl
    · simp [computeAmountSupply, h0]
  · intro value
    rcases value with _ | v
    · simp [computeAmountSupply]
    · simp only [computeAmountSupply]
      split_ifs with hc
      · have h1 := hc.1
        have h2 := hc.2
        positivity
      · exact le_refl 0

/-- Witness for C6: with total supply 4 and a raw value of 2 at 0 decimals,
supplyPercent is amount / 4 * 100 exactly; with unresolved supply it is 0. -/
theorem computeAmountSupply_spec_witness :
    0 < tokenInfoS.totalSupply ∧
    (computeAmountSupply tokenInfoS (some 2)).2
      = (computeAmountSupply tokenInfoS (some 2)).1 / tokenInfoS.totalSupply * 100 ∧
    tokenInfoT.totalSupply = 0 ∧
    (computeAmountSupply tokenInfoT (some 2)).2 = 0 :=
  have hts : 0 < tokenInfoS.totalSupply := by norm_num [tokenInfoS]
  have ht0 : tokenInfoT.totalSupply = 0 := rfl
  ⟨hts, (computeAmountSupply_spec tokenInfoS).1 2 hts, ht0,
    (computeAmountSupply_spec tokenInfoT).2.1 ht0 (some 2)⟩

/-- C7: analyzeFirstBuyers returns an error exactly when the transfer list
is empty or the dedup loop retains no buyer, and an empty transfer list
yields the error message for missing transactions, never an empty success. -/
theorem analyzeFirstBuyers_fatal_spec (ti : TokenInfo) (sig : String → Option TxSignal)
    (bribe : String → ℚ) (contractAddress : String) (limit : Nat)
    (transactions : List TransferEvent) :
    ((∃ msg, analyzeFirstBuyers ti transactions sig bribe contractAddress limit
        = Except.error msg) ↔
      (transactions = [] ∨
        analyzeLoop ti sig bribe (skipAddresses contractAddress) limit
          transactions [] 0 = [])) ∧
    (transactions = [] →
      analyzeFirstBuyers ti transactions sig bribe contractAddress limit
        = Except.error "No transactions found") := by
  constructor
  · constructor
    · rintro ⟨msg, hmsg⟩
      by_cases h1 : transactions.length = 0
      · exact Or.inl (List.length_eq_zero.mp h1)
      · right
        by_cases h2 : (analyzeLoop ti sig bribe (skipAddresses contractAddress) limit
            transactions [] 0).length = 0
        · exact List.length_eq_zero.mp h2
        · exfalso
          simp [analyzeFirstBuyers, h1, h2] at hmsg
    · intro h
      rcases h with h | h
      · subst h
        exact ⟨"No transactions found", by simp [analyzeFirstBuyers]⟩
      · by_cases h1 : transactions.length = 0
        · exact ⟨"No transactions found", by simp [analyzeFirstBuyers, h1]⟩
        · refine ⟨"No buyers found", ?_⟩
          simp [analyzeFirstBuyers, h1, h]
  · intro h
    subst h
    simp [analyzeFirstBuyers]

/-- Witness for C7: the empty transfer list makes the concrete call fail
with the no-transactions error. -/
theorem analyzeFirstBuyers_fatal_spec_witness :
    analyzeFirstBuyers tokenInfoT [] (fun _ => none) (fun _ => 0) "0xc0ffee" 10
      = Except.error "No transactions found" :=
  (analyzeFirstBuyers_fatal_spec tokenInfoT (fun _ => none) (fun _ => 0) "0xc0ffee" 10 []).2 rfl

/-- C8 (amended): getTokenInfo is a total function of the four independently
settled fetches (so it never fails outward and one failed field does not
abort the others), defaulting name to Unknown Token, symbol to TOKEN,
decimals to 18 and totalSupply to 0, with no alternate data source. -/
theorem getTokenInfo_defaults (f : MetadataFetch) :
    (getTokenInfo f).name = f.name.getD "Unknown Token" ∧
    (getTokenInfo f).symbol = f.symbol.getD "TOKEN" ∧
    (getTokenInfo f).decimals = f.decimals.getD 18 ∧
    (f.totalSupplyRaw = none → (getTokenInfo f).totalSupply = 0) := by
  refine ⟨rfl, rfl, rfl, ?_⟩
  intro h
  simp [getTokenInfo, h]

/-- Witness for C8: with every fetch failed the supply defaults to 0. -/
theorem getTokenInfo_defaults_witness :
    ({ name := none, symbol := none, decimals := none, totalSupplyRaw := none }
        : MetadataFetch).totalSupplyRaw = none ∧
    (getTokenInfo
        { name := none, symbol := none, decimals := none, totalSupplyRaw := none
        }).totalSupply = 0 :=
  ⟨rfl, (getTokenInfo_defaults
    { name := none, symbol := none, decimals := none, totalSupplyRaw := none }).2.2.2 rfl⟩

/-- Counterexample to C8 as stated: with every fetch failed the defaults are
name Unknown Token and symbol TOKEN, not the claimed name/symbol Unknown,
and they come from the single contract read with no alternate source. -/
theorem getTokenInfo_defaults_counterexample :
    getTokenInfo { name := none, symbol := none, decimals := none, totalSupplyRaw := none }
      = { name := "Unknown Token", symbol := "TOKEN", decimals := 18, totalSupply := 0 } ∧
    (getTokenInfo { name := none, symbol := none, decimals := none, totalSupplyRaw := none
        }).symbol ≠ "Unknown" ∧
    (getTokenInfo { name := none, symbol := none, decimals := none, totalSupplyRaw := none
        }).name ≠ "Unknown" := by
  refine ⟨by norm_num [getTokenInfo], ?_, ?_⟩
  · show ¬ ("TOKEN" = "Unknown")
    decide
  · show ¬ ("Unknown Token" = "Unknown")
    decide

end WalletsOrder
